import Mathlib

/-!
# User accounts: controller, repository and request schemas

A shallow embedding of `users-controller.js`, `users-repository.js` and
`users-validator.js`.

* JavaScript strings are Lean strings; `.length` is the number of UTF-16 code
  units (`jsLength`).
* The Mongoose collection behind the `User` model is a list of documents in
  insertion order. A query by `_id` or by `email` addresses the first document
  that matches.
* `async` functions are state-passing functions over the world they act on.
  A collaborator may throw; a handler catches every exception and hands it to
  `next`.
* The controller talks to `users-service.js`, which is not among the embedded
  files. Handlers therefore take the service as a parameter (`Env`), and each
  handler also returns the list of collaborator calls it issued.
-/

namespace Users

/-! ## Values -/

/-- Number of UTF-16 code units a character occupies in a JavaScript string. -/
def utf16Units (c : Char) : Nat :=
  if c.toNat < 65536 then 1 else 2

/-- The `.length` of a JavaScript string. -/
def jsLength (s : String) : Nat :=
  (s.toList.map utf16Units).sum

/-- Document identifier. The store hands them out; an ObjectId is kept abstract
as a natural number. -/
abbrev Id := Nat

/-- Modelled from the spec: `core/errors` is not among the embedded files.
These are the members of `errorTypes` the controller refers to, together with
`NOT_FOUND`, which only the error taxonomy of the specification names. -/
inductive ErrorType
  | UNPROCESSABLE_ENTITY
  | INVALID_PASSWORD
  | EMAIL_ALREADY_TAKEN
  | UNAUTHORIZED
  | INTERNAL_SERVER_ERROR
  | NOT_FOUND
  deriving DecidableEq, Repr

/-- A thrown value: either built by `errorResponder(type, message)` or any
other exception raised by a collaborator. -/
inductive Err
  | responder (type : ErrorType) (message : String)
  | thrown (what : String)
  deriving DecidableEq, Repr

/-- A document of the `User` collection. -/
structure UserDoc where
  _id : Id
  name : String
  email : String
  password : String
  deriving DecidableEq, Repr

/-! ## The collection -/

/-- The `User` collection: documents in insertion order and the next
identifier the store will assign. -/
structure Store where
  docs : List UserDoc
  nextId : Id
  deriving DecidableEq, Repr

/-- What `updateOne` reports. -/
structure UpdateResult where
  matchedCount : Nat
  modifiedCount : Nat
  deriving DecidableEq, Repr

/-- What `deleteOne` reports. -/
structure DeleteResult where
  deletedCount : Nat
  deriving DecidableEq, Repr

/-- Replace the first element satisfying `p` by its image under `f`. -/
def updateFirst {α : Type} (p : α → Bool) (f : α → α) : List α → List α
  | [] => []
  | a :: l => if p a then f a :: l else a :: updateFirst p f l

/-- Remove the first element satisfying `p`. -/
def removeFirst {α : Type} (p : α → Bool) : List α → List α
  | [] => []
  | a :: l => if p a then l else a :: removeFirst p l

namespace User

/-- `User.find({})`. -/
def find (σ : Store) : List UserDoc := σ.docs

/-- `User.findById(id)`. -/
def findById (id : Id) (σ : Store) : Option UserDoc :=
  σ.docs.find? (fun u => u._id == id)

/-- `User.findOne({ email })`. -/
def findOne (email : String) (σ : Store) : Option UserDoc :=
  σ.docs.find? (fun u => u.email == email)

/-- `User.create({ name, email, password })`: the store assigns the identifier
and appends the document. -/
def create (name email password : String) (σ : Store) : UserDoc × Store :=
  let doc : UserDoc := ⟨σ.nextId, name, email, password⟩
  (doc, ⟨σ.docs ++ [doc], σ.nextId + 1⟩)

/-- `User.updateOne({ _id: id }, { $set: ... })`, the `$set` given as the
function it applies to the matched document. -/
def updateOne (id : Id) (set : UserDoc → UserDoc) (σ : Store) : UpdateResult × Store :=
  match findById id σ with
  | none => (⟨0, 0⟩, σ)
  | some u =>
    (⟨1, if set u = u then 0 else 1⟩,
     ⟨updateFirst (fun v => v._id == id) set σ.docs, σ.nextId⟩)

/-- `User.deleteOne({ _id: id })`. -/
def deleteOne (id : Id) (σ : Store) : DeleteResult × Store :=
  match findById id σ with
  | none => (⟨0⟩, σ)
  | some _ => (⟨1⟩, ⟨removeFirst (fun v => v._id == id) σ.docs, σ.nextId⟩)

end User

/-! ## users-repository.js -/

namespace Repository

/-- `getUsers()`. -/
def getUsers (σ : Store) : List UserDoc := User.find σ

/-- `getUser(id)`. -/
def getUser (id : Id) (σ : Store) : Option UserDoc := User.findById id σ

/-- `createUser(name, email, password)`. -/
def createUser (name email password : String) (σ : Store) : UserDoc × Store :=
  User.create name email password σ

/-- `updateUser(id, name, email)`: `$set` of `name` and `email`. -/
def updateUser (id : Id) (name email : String) (σ : Store) : UpdateResult × Store :=
  User.updateOne id (fun u => { u with name := name, email := email }) σ

/-- `deleteUser(id)`. -/
def deleteUser (id : Id) (σ : Store) : DeleteResult × Store :=
  User.deleteOne id σ

/-- `checkEmailExists(email)`: `!!user` for the document found by email. -/
def checkEmailExists (email : String) (σ : Store) : Bool :=
  (User.findOne email σ).isSome

/-- `updatePassword(userId, newPassword)`: `$set` of `password`. -/
def updatePassword (userId : Id) (newPassword : String) (σ : Store) : UpdateResult × Store :=
  User.updateOne userId (fun u => { u with password := newPassword }) σ

end Repository

/-! ## What the controller calls -/

/-- Result of awaiting a collaborator in world `W`: a value or a thrown error,
and the world afterwards. -/
abbrev Eff (W : Type) (α : Type) := W → Except Err α × W

/-- The functions the controller imports: the members of `usersService` it
uses (results already reduced to what the controller tests: the user object or
a falsy value, and truthiness of the other results) and `comparePassword`. -/
structure Env (W : Type) where
  getUser : Id → Eff W (Option UserDoc)
  createUser : String → String → String → Eff W Bool
  updateUser : Id → String → String → Eff W Bool
  deleteUser : Id → Eff W Bool
  checkEmailExists : String → Eff W Bool
  updatePassword : Id → String → Eff W Bool
  comparePassword : String → String → Eff W Bool

/-- A collaborator call issued by a handler. -/
inductive Call
  | getUser (id : Id)
  | createUser (name email password : String)
  | updateUser (id : Id) (name email : String)
  | deleteUser (id : Id)
  | checkEmailExists (email : String)
  | updatePassword (id : Id) (newPassword : String)
  | comparePassword (plain stored : String)
  deriving DecidableEq, Repr

/-- The call is a password verification. -/
def Call.isComparePassword : Call → Bool
  | .comparePassword _ _ => true
  | _ => false

/-- The call is a password update. -/
def Call.isUpdatePassword : Call → Bool
  | .updatePassword _ _ => true
  | _ => false

/-- The call is an insert of a new account. -/
def Call.isCreateUser : Call → Bool
  | .createUser _ _ _ => true
  | _ => false

/-- The JSON bodies the handlers send. -/
inductive Body
  | nameEmail (name email : String)
  | id (id : Id)
  | message (text : String)
  deriving DecidableEq, Repr

/-- How a handler ends: `response.status(s).json(b)` or `next(error)`. -/
inductive Outcome
  | json (status : Nat) (body : Body)
  | next (error : Err)
  deriving DecidableEq, Repr

/-- A finished handler run: the outcome, the world afterwards, and the
collaborator calls in the order they were issued. -/
structure Run (W : Type) where
  outcome : Outcome
  world : W
  calls : List Call

/-- The handler passed an error of the given type to `next`. -/
def Outcome.failsWith (t : ErrorType) : Outcome → Prop
  | .next (.responder t0 _) => t0 = t
  | _ => False

instance Outcome.decFailsWith (t : ErrorType) (o : Outcome) : Decidable (o.failsWith t) := by
  unfold Outcome.failsWith
  split <;> infer_instance

/-! ## users-controller.js -/

namespace Controller

/-- Parameters and body of a create request. `password_confirm` is absent
(`none`) when the body does not carry it. -/
structure CreateUserRequest where
  name : String
  email : String
  password : String
  password_confirm : Option String
  deriving DecidableEq, Repr

/-- Parameters and body of an update request. -/
structure UpdateUserRequest where
  id : Id
  name : String
  email : String
  deriving DecidableEq, Repr

/-- Parameters and body of a change-password request. -/
structure ChangePasswordRequest where
  id : Id
  oldPassword : String
  newPassword : String
  newPasswordConfirm : String
  deriving DecidableEq, Repr

/-- `createUser(request, response, next)`. -/
def createUser {W : Type} (env : Env W) (request : CreateUserRequest) (w : W) : Run W :=
  let name := request.name
  let email := request.email
  let password := request.password
  if some password ≠ request.password_confirm then
    ⟨.next (.responder .INVALID_PASSWORD "Passwords do not match"), w, []⟩
  else
    match env.checkEmailExists email w with
    | (.error e, w1) => ⟨.next e, w1, [.checkEmailExists email]⟩
    | (.ok true, w1) =>
      ⟨.next (.responder .EMAIL_ALREADY_TAKEN "Email already taken"), w1,
        [.checkEmailExists email]⟩
    | (.ok false, w1) =>
      match env.createUser name email password w1 with
      | (.error e, w2) =>
        ⟨.next e, w2, [.checkEmailExists email, .createUser name email password]⟩
      | (.ok false, w2) =>
        ⟨.next (.responder .UNPROCESSABLE_ENTITY "Failed to create user"), w2,
          [.checkEmailExists email, .createUser name email password]⟩
      | (.ok true, w2) =>
        ⟨.json 200 (.nameEmail name email), w2,
          [.checkEmailExists email, .createUser name email password]⟩

/-- `updateUser(request, response, next)`. -/
def updateUser {W : Type} (env : Env W) (request : UpdateUserRequest) (w : W) : Run W :=
  let id := request.id
  let name := request.name
  let email := request.email
  match env.updateUser id name email w with
  | (.error e, w1) => ⟨.next e, w1, [.updateUser id name email]⟩
  | (.ok false, w1) =>
    ⟨.next (.responder .UNPROCESSABLE_ENTITY "Failed to update user"), w1,
      [.updateUser id name email]⟩
  | (.ok true, w1) => ⟨.json 200 (.id id), w1, [.updateUser id name email]⟩

/-- `deleteUser(request, response, next)`. -/
def deleteUser {W : Type} (env : Env W) (id : Id) (w : W) : Run W :=
  match env.deleteUser id w with
  | (.error e, w1) => ⟨.next e, w1, [.deleteUser id]⟩
  | (.ok false, w1) =>
    ⟨.next (.responder .UNPROCESSABLE_ENTITY "Failed to delete user"), w1, [.deleteUser id]⟩
  | (.ok true, w1) => ⟨.json 200 (.id id), w1, [.deleteUser id]⟩

/-- `changePassword(request, response, next)`. -/
def changePassword {W : Type} (env : Env W) (request : ChangePasswordRequest) (w : W) : Run W :=
  let userId := request.id
  let oldPassword := request.oldPassword
  let newPassword := request.newPassword
  let newPasswordConfirm := request.newPasswordConfirm
  if jsLength newPassword < 6 ∨ jsLength newPassword > 32 then
    ⟨.next (.responder .UNPROCESSABLE_ENTITY
        "New password length must be between 6 and 32 characters"), w, []⟩
  else if newPassword ≠ newPasswordConfirm then
    ⟨.next (.responder .INVALID_PASSWORD "New passwords do not match"), w, []⟩
  else
    match env.getUser userId w with
    | (.error e, w1) => ⟨.next e, w1, [.getUser userId]⟩
    | (.ok none, w1) =>
      ⟨.next (.responder .UNAUTHORIZED "User not found"), w1, [.getUser userId]⟩
    | (.ok (some user), w1) =>
      match env.comparePassword oldPassword user.password w1 with
      | (.error e, w2) =>
        ⟨.next e, w2, [.getUser userId, .comparePassword oldPassword user.password]⟩
      | (.ok false, w2) =>
        ⟨.next (.responder .UNAUTHORIZED "Old password does not match current password"), w2,
          [.getUser userId, .comparePassword oldPassword user.password]⟩
      | (.ok true, w2) =>
        match env.updatePassword userId newPassword w2 with
        | (.error e, w3) =>
          ⟨.next e, w3, [.getUser userId, .comparePassword oldPassword user.password,
            .updatePassword userId newPassword]⟩
        | (.ok false, w3) =>
          ⟨.next (.responder .INTERNAL_SERVER_ERROR "Failed to update password"), w3,
            [.getUser userId, .comparePassword oldPassword user.password,
              .updatePassword userId newPassword]⟩
        | (.ok true, w3) =>
          ⟨.json 200 (.message "Password updated successfully"), w3,
            [.getUser userId, .comparePassword oldPassword user.password,
              .updatePassword userId newPassword]⟩

end Controller

/-! ## The service layer and the hasher, as the specification describes them -/

/-- Modelled from the spec: the Password Hasher interface of section 6
(`hash(plaintext)` and `verify(plaintext, digest)`); the module
`utils/password` that implements it is not among the embedded files. -/
structure PasswordHasher where
  hash : String → String
  verify : String → String → Bool

/-- The assumption under which the specification states its password-change
properties: a password verifies against a digest exactly when the digest was
made from it. -/
def PasswordHasher.Sound (h : PasswordHasher) : Prop :=
  ∀ p q : String, h.verify p (h.hash q) = true ↔ p = q

/-- Modelled from the spec: the Account Service (`users-service.js`, not among
the embedded files) as sections 4 and 6 describe it, on top of the repository.
Lookups delegate to the repository; creation hashes the plaintext password and
inserts; update and delete refuse an identifier that resolves to no account
and otherwise delegate; the password update hashes the new password, delegates,
and reports whether the store applied it to an account. -/
def specEnv (h : PasswordHasher) : Env Store where
  getUser id σ := (.ok (Repository.getUser id σ), σ)
  createUser name email password σ :=
    (.ok true, (Repository.createUser name email (h.hash password) σ).2)
  updateUser id name email σ :=
    match Repository.getUser id σ with
    | none => (.ok false, σ)
    | some _ => (.ok true, (Repository.updateUser id name email σ).2)
  deleteUser id σ :=
    match Repository.getUser id σ with
    | none => (.ok false, σ)
    | some _ => (.ok true, (Repository.deleteUser id σ).2)
  checkEmailExists email σ := (.ok (Repository.checkEmailExists email σ), σ)
  updatePassword id newPassword σ :=
    let r := Repository.updatePassword id (h.hash newPassword) σ
    (.ok (decide (1 ≤ r.1.matchedCount)), r.2)
  comparePassword plain stored σ := (.ok (h.verify plain stored), σ)

/-- A hasher used in examples: the digest is the plaintext behind a marker. -/
def markHasher : PasswordHasher where
  hash q := "#" ++ q
  verify p d := d == "#" ++ p

/-- A store with two accounts, used in examples. -/
def demoStore : Store :=
  ⟨[⟨0, "Ann", "ann@x.com", "#secret1"⟩, ⟨1, "Bob", "bob@x.com", "#hunter22"⟩], 2⟩

/-! ## users-validator.js -/

/-- A value a request body may carry under a key; `undefined` stands for an
absent key. Numbers are kept as integers: the schemas below reject every
value that is not a string. -/
inductive JsVal
  | undefined
  | null
  | bool (b : Bool)
  | number (n : Int)
  | str (s : String)
  deriving DecidableEq, Repr

/-- A joi string schema: the length rules, the presence flag, and the value of
the sibling key a `.valid(joi.ref(...))` restricts it to. -/
structure StringSchema where
  minLength : Option Nat
  maxLength : Option Nat
  isRequired : Bool
  only : Option JsVal
  deriving DecidableEq, Repr

namespace StringSchema

/-- `.min(n)`. -/
def min (n : Nat) (s : StringSchema) : StringSchema := { s with minLength := some n }

/-- `.max(n)`. -/
def max (n : Nat) (s : StringSchema) : StringSchema := { s with maxLength := some n }

/-- `.required()`. -/
def required (s : StringSchema) : StringSchema := { s with isRequired := true }

/-- `.valid(joi.ref(key))`, given the value found under the referenced key. -/
def valid (referenced : JsVal) (s : StringSchema) : StringSchema :=
  { s with only := some referenced }

/-- `.label(...)` only changes the wording of errors. -/
def label (_ : String) (s : StringSchema) : StringSchema := s

/-- `.messages(...)` only changes the wording of errors. -/
def messages (_ : List (String × String)) (s : StringSchema) : StringSchema := s

/-- The type check and the rules of a string schema: a non-empty string whose
length respects the bounds. -/
def rulesAccept (s : StringSchema) : JsVal → Bool
  | .str x =>
    decide (x ≠ "") &&
    (match s.minLength with
      | none => true
      | some n => decide (n ≤ jsLength x)) &&
    (match s.maxLength with
      | none => true
      | some n => decide (jsLength x ≤ n))
  | _ => false

/-- Validation of one value, in the order joi applies its steps: presence, the
allowed values (a match accepts at once, a miss under `valid` rejects), then
the type and its rules. -/
def accepts (s : StringSchema) (v : JsVal) : Bool :=
  if v = .undefined then !s.isRequired
  else
    match s.only with
    | some allowed => decide (v = allowed)
    | none => s.rulesAccept v

end StringSchema

namespace Joi

/-- `joi.string()`. -/
def string : StringSchema := ⟨none, none, false, none⟩

end Joi

/-- The body of a change-password request as it arrives. -/
structure RawBody where
  oldPassword : JsVal
  newPassword : JsVal
  newPasswordConfirm : JsVal
  deriving DecidableEq, Repr

namespace Validator

/-- The `changePassword.body` schema applied to a body: every key must pass
its schema. -/
def changePassword (body : RawBody) : Bool :=
  (Joi.string.required.label "Old Password").accepts body.oldPassword &&
  ((((Joi.string.min 6).max 32).required).label "New Password").accepts body.newPassword &&
  ((((((Joi.string.min 6).max 32).required).valid body.newPassword).label
      "New Password Confirmation").messages
      [("any.only", "New password confirmation must match new password")]).accepts
    body.newPasswordConfirm

end Validator

/-- The request the handler destructures from the route parameter and a body
whose three fields are strings. -/
def RawBody.toRequest (id : Id) (body : RawBody) : Option Controller.ChangePasswordRequest :=
  match body.oldPassword, body.newPassword, body.newPasswordConfirm with
  | .str o, .str n, .str c => some ⟨id, o, n, c⟩
  | _, _, _ => none

/-! ## Sequences of account operations -/

/-- An account operation arriving at the controller. -/
inductive Op
  | create (request : Controller.CreateUserRequest)
  | update (request : Controller.UpdateUserRequest)
  | delete (id : Id)
  | changePassword (request : Controller.ChangePasswordRequest)
  deriving DecidableEq, Repr

/-- The store after one operation has been handled. -/
def step (h : PasswordHasher) (op : Op) (σ : Store) : Store :=
  match op with
  | .create request => (Controller.createUser (specEnv h) request σ).world
  | .update request => (Controller.updateUser (specEnv h) request σ).world
  | .delete id => (Controller.deleteUser (specEnv h) id σ).world
  | .changePassword request => (Controller.changePassword (specEnv h) request σ).world

/-- The store after a sequence of operations handled one after the other. -/
def runOps (h : PasswordHasher) : List Op → Store → Store
  | [], σ => σ
  | op :: ops, σ => runOps h ops (step h op σ)

/-- No two accounts of the store share an email. -/
def EmailsDistinct (σ : Store) : Prop :=
  (σ.docs.map (fun u => u.email)).Nodup

instance EmailsDistinct.dec (σ : Store) : Decidable (EmailsDistinct σ) := by
  unfold EmailsDistinct
  infer_instance

/-- An update asks for an email that no account other than the updated one
holds; operations other than update ask for nothing. -/
def Op.emailFree (σ : Store) : Op → Prop
  | .update request =>
    ∀ u ∈ σ.docs, u.email = request.email → Repository.getUser request.id σ = some u
  | _ => True

instance Op.decEmailFree (σ : Store) (op : Op) : Decidable (op.emailFree σ) := by
  cases op <;> unfold Op.emailFree <;> infer_instance

/-- Every update of the sequence finds its email free in the store it meets. -/
def EmailFreeRun (h : PasswordHasher) : List Op → Store → Prop
  | [], _ => True
  | op :: ops, σ => op.emailFree σ ∧ EmailFreeRun h ops (step h op σ)

instance EmailFreeRun.dec (h : PasswordHasher) :
    (ops : List Op) → (σ : Store) → Decidable (EmailFreeRun h ops σ)
  | [], _ => isTrue trivial
  | op :: ops, σ =>
    match Op.decEmailFree σ op, EmailFreeRun.dec h ops (step h op σ) with
    | isTrue a, isTrue b => isTrue ⟨a, b⟩
    | isFalse a, _ => isFalse (fun c => a c.1)
    | _, isFalse b => isFalse (fun c => b c.2)

/-! ## Shared lemmas -/

/-- The length guard of `changePassword` ends the handler at once. -/
theorem changePassword_length_guard {W : Type} (env : Env W)
    (request : Controller.ChangePasswordRequest) (w : W)
    (h : jsLength request.newPassword < 6 ∨ jsLength request.newPassword > 32) :
    Controller.changePassword env request w =
      ⟨.next (.responder .UNPROCESSABLE_ENTITY
        "New password length must be between 6 and 32 characters"), w, []⟩ := by
  simp [Controller.changePassword, h]

/-- The confirmation guard of `changePassword` ends the handler at once. -/
theorem changePassword_confirm_guard {W : Type} (env : Env W)
    (request : Controller.ChangePasswordRequest) (w : W)
    (h1 : ¬ (jsLength request.newPassword < 6 ∨ jsLength request.newPassword > 32))
    (h : request.newPassword ≠ request.newPasswordConfirm) :
    Controller.changePassword env request w =
      ⟨.next (.responder .INVALID_PASSWORD "New passwords do not match"), w, []⟩ := by
  simp [Controller.changePassword, h1, h]

/-- Mapping a projection the update preserves over the list sees no change. -/
theorem updateFirst_map {α β : Type} (p : α → Bool) (f : α → α) (g : α → β)
    (hg : ∀ a, g (f a) = g a) (l : List α) :
    (updateFirst p f l).map g = l.map g := by
  induction l with
  | nil => rfl
  | cons a l ih =>
    by_cases hp : p a = true
    · simp [updateFirst, hp, hg]
    · simp [updateFirst, hp, ih]

/-- Position by position, the update either keeps the element or replaces a
matching element by its image. -/
theorem updateFirst_getElem? {α : Type} (p : α → Bool) (f : α → α) (l : List α) (i : Nat)
    (a : α) (h : l[i]? = some a) :
    (updateFirst p f l)[i]? = some a ∨ (p a = true ∧ (updateFirst p f l)[i]? = some (f a)) := by
  induction l generalizing i with
  | nil => simp at h
  | cons b l ih =>
    by_cases hp : p b = true
    · cases i with
      | zero =>
        simp only [List.getElem?_cons_zero, Option.some.injEq] at h
        subst h
        right
        simp [updateFirst, hp]
      | succ j =>
        left
        simpa [updateFirst, hp] using h
    · cases i with
      | zero =>
        left
        simpa [updateFirst, hp] using h
      | succ j =>
        simp only [List.getElem?_cons_succ] at h
        simpa [updateFirst, hp] using ih j h

/-- After the update, the first match is the image of the former first match,
provided the update does not change what is matched on. -/
theorem find?_updateFirst {α : Type} (p : α → Bool) (f : α → α)
    (hf : ∀ a, p (f a) = p a) (l : List α) :
    (updateFirst p f l).find? p = (l.find? p).map f := by
  induction l with
  | nil => rfl
  | cons a l ih =>
    by_cases hp : p a = true
    · simp [updateFirst, List.find?, hp, hf]
    · simp [updateFirst, List.find?, hp, ih]

/-- Removing the first match leaves a sublist. -/
theorem removeFirst_sublist {α : Type} (p : α → Bool) (l : List α) :
    (removeFirst p l).Sublist l := by
  induction l with
  | nil => exact List.Sublist.refl _
  | cons a l ih =>
    by_cases hp : p a = true
    · simp [removeFirst, hp]
    · simp [removeFirst, hp, ih]

/-- What a key projection can see after the update: a former key or the key
every updated element gets. -/
theorem mem_map_updateFirst {α β : Type} (p : α → Bool) (f : α → α) (g : α → β) (e : β)
    (hf : ∀ a, g (f a) = e) (l : List α) (b : β)
    (hb : b ∈ (updateFirst p f l).map g) : b ∈ l.map g ∨ b = e := by
  induction l with
  | nil => simp [updateFirst] at hb
  | cons a l ih =>
    cases hp : p a with
    | true =>
      simp only [updateFirst, hp, if_true, List.map_cons, List.mem_cons] at hb ⊢
      rcases hb with h | h
      · exact Or.inr (h.trans (hf a))
      · exact Or.inl (Or.inr h)
    | false =>
      simp only [updateFirst, hp, Bool.false_eq_true, if_false, List.map_cons,
        List.mem_cons] at hb ⊢
      rcases hb with h | h
      · exact Or.inl (Or.inl h)
      · rcases ih h with h2 | h2
        · exact Or.inl (Or.inr h2)
        · exact Or.inr h2

/-- Keys stay pairwise distinct under the update when the new key is held by
no element other than the one updated. -/
theorem updateFirst_nodup {α β : Type} (p : α → Bool) (f : α → α) (g : α → β) (e : β)
    (hf : ∀ a, g (f a) = e) (l : List α) (hnd : (l.map g).Nodup)
    (hfree : ∀ a ∈ l, g a = e → l.find? p = some a) :
    ((updateFirst p f l).map g).Nodup := by
  induction l with
  | nil => simp [updateFirst]
  | cons a l ih =>
    rw [List.map_cons, List.nodup_cons] at hnd
    obtain ⟨hal, hl⟩ := hnd
    by_cases hp : p a = true
    · simp only [updateFirst, hp, if_true, List.map_cons, List.nodup_cons]
      refine ⟨?_, hl⟩
      rw [hf]
      intro hmem
      obtain ⟨u, hu, hue⟩ := List.mem_map.1 hmem
      have := hfree u (List.mem_cons_of_mem _ hu) hue
      simp only [List.find?, hp, Option.some.injEq] at this
      subst this
      exact hal (List.mem_map.2 ⟨a, hu, rfl⟩)
    · have hfree2 : ∀ u ∈ l, g u = e → l.find? p = some u := by
        intro u hu hue
        have := hfree u (List.mem_cons_of_mem _ hu) hue
        simpa only [List.find?, hp] using this
      have hae : g a ≠ e := by
        intro hae
        have := hfree a (List.mem_cons_self _ _) hae
        simp only [List.find?, hp] at this
        exact hp (by simpa using List.find?_some this)
      have hpf : p a = false := by simpa using hp
      simp only [updateFirst, hpf, Bool.false_eq_true, if_false, List.map_cons,
        List.nodup_cons]
      refine ⟨?_, ih hl hfree2⟩
      intro hmem
      rcases mem_map_updateFirst p f g e hf l _ hmem with h | h
      · exact hal h
      · exact hae h

/-- The service of the specification changes the store in a password change
only through the password update of the repository. -/
theorem changePassword_world (h : PasswordHasher) (request : Controller.ChangePasswordRequest)
    (σ : Store) :
    (Controller.changePassword (specEnv h) request σ).world = σ ∨
    (Controller.changePassword (specEnv h) request σ).world
      = (Repository.updatePassword request.id (h.hash request.newPassword) σ).2 := by
  by_cases h1 : jsLength request.newPassword < 6 ∨ jsLength request.newPassword > 32
  · left
    rw [changePassword_length_guard _ _ _ h1]
  · by_cases h2 : request.newPassword = request.newPasswordConfirm
    · obtain ⟨id, old, new, conf⟩ := request
      simp only at h1 h2 ⊢
      subst h2
      simp only [Controller.changePassword, h1, if_false, ne_eq, not_true_eq_false, specEnv]
      cases Repository.getUser id σ with
      | none => exact Or.inl rfl
      | some user =>
        simp only []
        cases h.verify old user.password with
        | false => exact Or.inl rfl
        | true =>
          simp only []
          cases decide (1 ≤ (Repository.updatePassword id
            (h.hash new) σ).1.matchedCount) <;> exact Or.inr rfl
    · left
      rw [changePassword_confirm_guard _ _ _ h1 h2]

/-- One operation keeps the emails pairwise distinct, an update under the
proviso that its email is free. -/
theorem step_emails_distinct (h : PasswordHasher) (op : Op) (σ : Store)
    (hσ : EmailsDistinct σ) (hfree : op.emailFree σ) : EmailsDistinct (step h op σ) := by
  cases op with
  | create request =>
    simp only [step, Controller.createUser, specEnv]
    by_cases hc : some request.password = request.password_confirm
    · simp only [hc, ne_eq, not_true_eq_false, if_false]
      cases hx : Repository.checkEmailExists request.email σ with
      | true => exact hσ
      | false =>
        simp only [Repository.createUser, User.create, EmailsDistinct, List.map_append,
          List.map_cons, List.map_nil]
        have hnone : σ.docs.find? (fun u => u.email == request.email) = none := by
          simpa [Repository.checkEmailExists, User.findOne] using hx
        rw [List.find?_eq_none] at hnone
        refine List.Nodup.append hσ (List.nodup_singleton _) ?_
        intro e he1 he2
        obtain ⟨u, hu, rfl⟩ := List.mem_map.1 he1
        simp only [List.mem_singleton] at he2
        exact hnone u hu (by simp [he2])
    · simpa only [ne_eq, hc, not_false_eq_true, if_true] using hσ
  | update request =>
    simp only [step, Controller.updateUser, specEnv]
    cases hget : Repository.getUser request.id σ with
    | none => exact hσ
    | some user =>
      have hfind : σ.docs.find? (fun u => u._id == request.id) = some user := hget
      simp only [Repository.updateUser, User.updateOne, User.findById, hfind, EmailsDistinct]
      refine updateFirst_nodup _ _ (fun u : UserDoc => u.email) request.email (fun _ => rfl)
        σ.docs hσ ?_
      intro u hu hue
      have := hfree u hu hue
      rw [hget] at this
      rw [hfind, this]
  | delete id =>
    simp only [step, Controller.deleteUser, specEnv]
    cases hget : Repository.getUser id σ with
    | none => exact hσ
    | some user =>
      have hfind : σ.docs.find? (fun u => u._id == id) = some user := hget
      simp only [Repository.deleteUser, User.deleteOne, User.findById, hfind, EmailsDistinct]
      exact List.Nodup.sublist ((removeFirst_sublist _ _).map _) hσ
  | changePassword request =>
    simp only [step]
    rcases changePassword_world h request σ with hw | hw
    · rw [hw]
      exact hσ
    · rw [hw]
      simp only [Repository.updatePassword, User.updateOne, User.findById]
      cases σ.docs.find? (fun u => u._id == request.id) with
      | none => exact hσ
      | some user =>
        simp only [EmailsDistinct]
        have key := updateFirst_map (fun v : UserDoc => v._id == request.id)
          (fun u : UserDoc => { u with password := h.hash request.newPassword })
          (fun u : UserDoc => u.email) (fun _ => rfl) σ.docs
        rw [key]
        exact hσ

/-- The example hasher verifies a password against a digest exactly when the
digest was made from it. -/
theorem markHasher_sound : markHasher.Sound := by
  intro p q
  show (("#" ++ q) == ("#" ++ p)) = true ↔ p = q
  rw [beq_iff_eq, String.ext_iff, String.data_append, String.data_append,
    List.append_right_inj, ← String.ext_iff]
  exact eq_comm

/-! ## Password change: the guards -/

/-- Claim C1, as the code has it: a change-password request whose new password
is shorter than 6 or longer than 32 code units is refused with the
UNPROCESSABLE_ENTITY error, whatever the service, the identifier, the old
password and the confirmation are; the world is untouched and no collaborator
is called. -/
theorem changePassword_length_out_of_range {W : Type} (env : Env W)
    (request : Controller.ChangePasswordRequest) (w : W)
    (h : jsLength request.newPassword < 6 ∨ jsLength request.newPassword > 32) :
    Controller.changePassword env request w =
      ⟨.next (.responder .UNPROCESSABLE_ENTITY
        "New password length must be between 6 and 32 characters"), w, []⟩ := by
  simp [Controller.changePassword, h]

/-- Claim C1 at a request with a new password of three characters. -/
theorem changePassword_length_out_of_range_witness :
    (jsLength "abc" < 6 ∨ jsLength "abc" > 32) ∧
    Controller.changePassword (specEnv markHasher) ⟨0, "secret1", "abc", "abc"⟩ demoStore =
      ⟨.next (.responder .UNPROCESSABLE_ENTITY
        "New password length must be between 6 and 32 characters"), demoStore, []⟩ :=
  ⟨by decide, changePassword_length_out_of_range _ ⟨0, "secret1", "abc", "abc"⟩ _ (by decide)⟩

/-- Claim C1 as stated fails: with a new password of three characters the
error handed to `next` is not INVALID_PASSWORD. -/
theorem changePassword_short_is_not_invalid_password :
    jsLength "abc" < 6 ∧
    ¬ (Controller.changePassword (specEnv markHasher)
        ⟨0, "secret1", "abc", "abc"⟩ demoStore).outcome.failsWith .INVALID_PASSWORD := by
  decide

/-- Claim C2, as the code has it: a change-password request whose new password
has a length within 6..32 and differs from its confirmation is refused with
the INVALID_PASSWORD error, whatever the service answers (so regardless of the
old password and of whether the account exists); no collaborator is called. -/
theorem changePassword_confirmation_mismatch {W : Type} (env : Env W)
    (request : Controller.ChangePasswordRequest) (w : W)
    (hlen : 6 ≤ jsLength request.newPassword ∧ jsLength request.newPassword ≤ 32)
    (h : request.newPassword ≠ request.newPasswordConfirm) :
    Controller.changePassword env request w =
      ⟨.next (.responder .INVALID_PASSWORD "New passwords do not match"), w, []⟩ := by
  have h1 : ¬ (jsLength request.newPassword < 6 ∨ jsLength request.newPassword > 32) := by omega
  simp [Controller.changePassword, h1, h]

/-- Claim C2 at a request for an unknown account with a wrong old password. -/
theorem changePassword_confirmation_mismatch_witness :
    (6 ≤ jsLength "newpass1" ∧ jsLength "newpass1" ≤ 32) ∧ "newpass1" ≠ "newpass2" ∧
    Controller.changePassword (specEnv markHasher)
        ⟨7, "wrong", "newpass1", "newpass2"⟩ demoStore =
      ⟨.next (.responder .INVALID_PASSWORD "New passwords do not match"), demoStore, []⟩ :=
  ⟨by decide, by decide,
    changePassword_confirmation_mismatch _ ⟨7, "wrong", "newpass1", "newpass2"⟩ _
      (by decide) (by decide)⟩

/-- Claim C2 as stated fails: when the new password is also too short, the
mismatching confirmation does not produce INVALID_PASSWORD. -/
theorem changePassword_mismatch_short_is_not_invalid_password :
    "abc" ≠ "abd" ∧
    ¬ (Controller.changePassword (specEnv markHasher)
        ⟨0, "secret1", "abc", "abd"⟩ demoStore).outcome.failsWith .INVALID_PASSWORD := by
  decide

/-! ## Password change: account resolution and credential check -/

/-- Claim C3: when a change-password request passes the length and the
confirmation check and the lookup by id yields no account, the handler passes
UNAUTHORIZED (not NOT_FOUND) to `next`, and the lookup is the only call it
issued: neither the password verification nor the password update is invoked. -/
theorem changePassword_unknown_account {W : Type} (env : Env W)
    (request : Controller.ChangePasswordRequest) (w w1 : W)
    (hlen : 6 ≤ jsLength request.newPassword ∧ jsLength request.newPassword ≤ 32)
    (hconf : request.newPassword = request.newPasswordConfirm)
    (hget : env.getUser request.id w = (.ok none, w1)) :
    Controller.changePassword env request w =
        ⟨.next (.responder .UNAUTHORIZED "User not found"), w1, [.getUser request.id]⟩ ∧
      (Controller.changePassword env request w).outcome.failsWith .UNAUTHORIZED ∧
      ¬ (Controller.changePassword env request w).outcome.failsWith .NOT_FOUND ∧
      ∀ c ∈ (Controller.changePassword env request w).calls,
        c.isComparePassword = false ∧ c.isUpdatePassword = false := by
  have h1 : ¬ (jsLength request.newPassword < 6 ∨ jsLength request.newPassword > 32) := by omega
  have hrun : Controller.changePassword env request w =
      ⟨.next (.responder .UNAUTHORIZED "User not found"), w1, [.getUser request.id]⟩ := by
    simp [Controller.changePassword, h1, hconf.symm, hget]
  rw [hrun]
  simp [Outcome.failsWith, Call.isComparePassword, Call.isUpdatePassword]

/-- Claim C3 at a request for an identifier the example store does not hold. -/
theorem changePassword_unknown_account_witness :
    (6 ≤ jsLength "newpass1" ∧ jsLength "newpass1" ≤ 32) ∧
    (specEnv markHasher).getUser 7 demoStore = (.ok none, demoStore) ∧
    Controller.changePassword (specEnv markHasher)
        ⟨7, "secret1", "newpass1", "newpass1"⟩ demoStore =
      ⟨.next (.responder .UNAUTHORIZED "User not found"), demoStore, [.getUser 7]⟩ :=
  ⟨by decide, rfl,
    (changePassword_unknown_account (specEnv markHasher)
      ⟨7, "secret1", "newpass1", "newpass1"⟩ demoStore demoStore
      (by decide) rfl rfl).1⟩

/-- Claim C4, as the code has it: on an existing account whose stored password
the old password does not verify against, the handler leaves the store as it
was and never issues the password update, so the stored password is the same
before and after; and when the request passes the length and the confirmation
check, the handler passes UNAUTHORIZED to `next`. The service lookup is the
repository lookup. -/
theorem changePassword_wrong_old_password (env : Env Store)
    (request : Controller.ChangePasswordRequest) (σ : Store) (user : UserDoc)
    (hsvc : env.getUser request.id σ = (.ok (Repository.getUser request.id σ), σ))
    (huser : Repository.getUser request.id σ = some user)
    (hcmp : env.comparePassword request.oldPassword user.password σ = (.ok false, σ)) :
    (Controller.changePassword env request σ).world = σ ∧
      Repository.getUser request.id (Controller.changePassword env request σ).world
        = some user ∧
      (∀ c ∈ (Controller.changePassword env request σ).calls, c.isUpdatePassword = false) ∧
      (6 ≤ jsLength request.newPassword ∧ jsLength request.newPassword ≤ 32 →
        request.newPassword = request.newPasswordConfirm →
        Controller.changePassword env request σ =
          ⟨.next (.responder .UNAUTHORIZED "Old password does not match current password"), σ,
            [.getUser request.id, .comparePassword request.oldPassword user.password]⟩) := by
  rw [huser] at hsvc
  by_cases h1 : jsLength request.newPassword < 6 ∨ jsLength request.newPassword > 32
  · have hrun := changePassword_length_guard env request σ h1
    rw [hrun]
    refine ⟨rfl, huser, by simp, fun hlen _ => absurd h1 (by omega)⟩
  · by_cases h2 : request.newPassword = request.newPasswordConfirm
    · have hrun : Controller.changePassword env request σ =
          ⟨.next (.responder .UNAUTHORIZED "Old password does not match current password"), σ,
            [.getUser request.id, .comparePassword request.oldPassword user.password]⟩ := by
        simp [Controller.changePassword, h1, h2.symm, hsvc, hcmp]
      rw [hrun]
      exact ⟨rfl, huser, by simp [Call.isUpdatePassword], fun _ _ => rfl⟩
    · have hrun := changePassword_confirm_guard env request σ h1 h2
      rw [hrun]
      exact ⟨rfl, huser, by simp, fun _ hc => absurd hc h2⟩

/-- Claim C4 at a request with a wrong old password on the first example account. -/
theorem changePassword_wrong_old_password_witness :
    (specEnv markHasher).getUser 0 demoStore = (.ok (Repository.getUser 0 demoStore), demoStore) ∧
    Repository.getUser 0 demoStore = some ⟨0, "Ann", "ann@x.com", "#secret1"⟩ ∧
    (specEnv markHasher).comparePassword "wrong" "#secret1" demoStore = (.ok false, demoStore) ∧
    (Controller.changePassword (specEnv markHasher)
        ⟨0, "wrong", "newpass2", "newpass2"⟩ demoStore).world = demoStore :=
  ⟨rfl, rfl, rfl,
    (changePassword_wrong_old_password (specEnv markHasher)
      ⟨0, "wrong", "newpass2", "newpass2"⟩ demoStore ⟨0, "Ann", "ann@x.com", "#secret1"⟩
      rfl rfl rfl).1⟩

/-- Claim C4 as stated fails: on an existing account and with an old password
that does not verify, a new password of three characters makes the handler
fail with an error that is not UNAUTHORIZED. -/
theorem changePassword_wrong_old_short_is_not_unauthorized :
    Repository.getUser 0 demoStore = some ⟨0, "Ann", "ann@x.com", "#secret1"⟩ ∧
    markHasher.verify "wrong" "#secret1" = false ∧
    ¬ (Controller.changePassword (specEnv markHasher)
        ⟨0, "wrong", "abc", "abc"⟩ demoStore).outcome.failsWith .UNAUTHORIZED := by
  decide

/-! ## Password change: the boundary lengths -/

/-- Claim C6: with a new password of exactly 6 or exactly 32 code units that
equals its confirmation, an account found by the lookup, an old password that
verifies against the stored one and a password update that reports success,
the handler answers 200 with the confirmation message and passes no error to
`next`. -/
theorem changePassword_boundary_lengths_succeed {W : Type} (env : Env W)
    (request : Controller.ChangePasswordRequest) (w w1 w2 w3 : W) (user : UserDoc)
    (hlen : jsLength request.newPassword = 6 ∨ jsLength request.newPassword = 32)
    (hconf : request.newPasswordConfirm = request.newPassword)
    (hget : env.getUser request.id w = (.ok (some user), w1))
    (hcmp : env.comparePassword request.oldPassword user.password w1 = (.ok true, w2))
    (hupd : env.updatePassword request.id request.newPassword w2 = (.ok true, w3)) :
    Controller.changePassword env request w =
        ⟨.json 200 (.message "Password updated successfully"), w3,
          [.getUser request.id, .comparePassword request.oldPassword user.password,
            .updatePassword request.id request.newPassword]⟩ ∧
      ∀ e, (Controller.changePassword env request w).outcome ≠ .next e := by
  have h1 : ¬ (jsLength request.newPassword < 6 ∨ jsLength request.newPassword > 32) := by omega
  have hrun : Controller.changePassword env request w =
        ⟨.json 200 (.message "Password updated successfully"), w3,
          [.getUser request.id, .comparePassword request.oldPassword user.password,
            .updatePassword request.id request.newPassword]⟩ := by
    simp [Controller.changePassword, h1, hconf, hget, hcmp, hupd]
  rw [hrun]
  simp

/-- Claim C6 at a new password of exactly six characters. -/
theorem changePassword_boundary_lengths_succeed_witness :
    (jsLength "sixsix" = 6 ∨ jsLength "sixsix" = 32) ∧
    Controller.changePassword (specEnv markHasher) ⟨0, "secret1", "sixsix", "sixsix"⟩ demoStore =
      ⟨.json 200 (.message "Password updated successfully"),
        ⟨[⟨0, "Ann", "ann@x.com", "#sixsix"⟩, ⟨1, "Bob", "bob@x.com", "#hunter22"⟩], 2⟩,
        [.getUser 0, .comparePassword "secret1" "#secret1", .updatePassword 0 "sixsix"]⟩ :=
  ⟨by decide,
    (changePassword_boundary_lengths_succeed (specEnv markHasher)
      ⟨0, "secret1", "sixsix", "sixsix"⟩ demoStore demoStore demoStore
      ⟨[⟨0, "Ann", "ann@x.com", "#sixsix"⟩, ⟨1, "Bob", "bob@x.com", "#hunter22"⟩], 2⟩
      ⟨0, "Ann", "ann@x.com", "#secret1"⟩ (by decide) rfl rfl rfl rfl).1⟩

/-! ## The request schema in front of the handler -/

/-- Claim C10: a body the change-password schema accepts has three string
fields, its new password has a length within 6..32 and equals the
confirmation, so both guards of the handler pass: whatever the service, the
handler reaches the account lookup. -/
theorem validator_accepts_implies_guards_pass (id : Id) (body : RawBody)
    (h : Validator.changePassword body = true) :
    ∃ request : Controller.ChangePasswordRequest,
      body.toRequest id = some request ∧
      ¬ (jsLength request.newPassword < 6 ∨ jsLength request.newPassword > 32) ∧
      ¬ (request.newPassword ≠ request.newPasswordConfirm) ∧
      ∀ (W : Type) (env : Env W) (w : W),
        (Controller.changePassword env request w).calls.head? = some (.getUser id) := by
  obtain ⟨o, n, c⟩ := body
  simp only [Validator.changePassword, StringSchema.accepts, StringSchema.label,
    StringSchema.messages, StringSchema.required, StringSchema.min, StringSchema.max, StringSchema.valid,
    Joi.string, Bool.and_eq_true] at h
  obtain ⟨⟨ho, hn⟩, hc⟩ := h
  cases o <;> simp [StringSchema.rulesAccept] at ho
  cases n <;> simp [StringSchema.rulesAccept] at hn
  cases c <;> simp at hc
  rename_i o n c
  subst hc
  refine ⟨⟨id, o, c, c⟩, rfl, by simp only []; omega, by simp, ?_⟩
  intro W env w
  have h1 : ¬ (jsLength c < 6 ∨ jsLength c > 32) := by omega
  simp only [Controller.changePassword, h1, if_false, ne_eq, not_true_eq_false]
  rcases hg : env.getUser id w with ⟨r, w1⟩
  rcases r with e | u
  · simp
  · cases u with
    | none => simp
    | some user =>
      simp only []
      rcases hcmp : env.comparePassword o user.password w1 with ⟨r2, w2⟩
      rcases r2 with e | b
      · simp
      · cases b
        · simp
        · simp only []
          rcases hupd : env.updatePassword id c w2 with ⟨r3, w3⟩
          rcases r3 with e | b <;> [simp; (cases b <;> simp)]

/-- Claim C10 at a body the schema accepts. -/
theorem validator_accepts_implies_guards_pass_witness :
    Validator.changePassword ⟨.str "secret1", .str "newpass1", .str "newpass1"⟩ = true ∧
    ∃ request : Controller.ChangePasswordRequest,
      RawBody.toRequest 0 ⟨.str "secret1", .str "newpass1", .str "newpass1"⟩ = some request ∧
      ¬ (jsLength request.newPassword < 6 ∨ jsLength request.newPassword > 32) ∧
      ¬ (request.newPassword ≠ request.newPasswordConfirm) ∧
      ∀ (W : Type) (env : Env W) (w : W),
        (Controller.changePassword env request w).calls.head? = some (.getUser 0) :=
  ⟨by decide,
    validator_accepts_implies_guards_pass 0
      ⟨.str "secret1", .str "newpass1", .str "newpass1"⟩ (by decide)⟩

/-! ## The profile update of the repository -/

/-- Claim C9: the repository update keeps the identifier and the password of
every document, position by position; a document is either kept as it is or,
when its identifier is the requested one, replaced by itself with the new name
and email; the identifier counter is kept; and when no document has the
requested identifier the store is unchanged. -/
theorem updateUser_frame (σ : Store) (id : Id) (name email : String) :
    (Repository.updateUser id name email σ).2.docs.map (fun u => u._id)
        = σ.docs.map (fun u => u._id) ∧
      (Repository.updateUser id name email σ).2.docs.map (fun u => u.password)
        = σ.docs.map (fun u => u.password) ∧
      (Repository.updateUser id name email σ).2.nextId = σ.nextId ∧
      (∀ (i : Nat) (u : UserDoc), σ.docs[i]? = some u →
        (Repository.updateUser id name email σ).2.docs[i]? = some u ∨
        (u._id = id ∧ (Repository.updateUser id name email σ).2.docs[i]?
          = some { u with name := name, email := email })) ∧
      ((∀ u ∈ σ.docs, u._id ≠ id) → (Repository.updateUser id name email σ).2 = σ) := by
  unfold Repository.updateUser User.updateOne User.findById
  cases hfind : σ.docs.find? (fun u => u._id == id) with
  | none =>
    refine ⟨rfl, rfl, rfl, fun i u hu => Or.inl hu, fun _ => rfl⟩
  | some t =>
    dsimp only
    refine ⟨by apply updateFirst_map; intro a; rfl, by apply updateFirst_map; intro a; rfl,
      rfl, ?_, ?_⟩
    · intro i u hu
      rcases updateFirst_getElem? (fun v => v._id == id)
        (fun u => { u with name := name, email := email }) σ.docs i u hu with h | ⟨hp, h⟩
      · exact Or.inl h
      · exact Or.inr ⟨by simpa using hp, h⟩
    · intro hall
      have := List.find?_some hfind
      have hmem := List.mem_of_find?_eq_some hfind
      exact absurd (by simpa using this) (hall t hmem)

/-! ## Password change: the commit -/

/-- Claim C5, as the code has it: with a sound hasher, a change-password call
on an existing account with a new password of valid length equal to its
confirmation and an old password that verifies succeeds, and the password
stored afterwards is the digest of the new password: the new password verifies
against it, and the old password does not verify against it provided the old
and the new password differ. -/
theorem changePassword_commit (h : PasswordHasher) (hs : h.Sound) (σ : Store)
    (request : Controller.ChangePasswordRequest) (user : UserDoc)
    (huser : Repository.getUser request.id σ = some user)
    (hlen : 6 ≤ jsLength request.newPassword ∧ jsLength request.newPassword ≤ 32)
    (hconf : request.newPassword = request.newPasswordConfirm)
    (hold : h.verify request.oldPassword user.password = true) :
    (Controller.changePassword (specEnv h) request σ).outcome
        = .json 200 (.message "Password updated successfully") ∧
      ∃ stored : UserDoc,
        Repository.getUser request.id (Controller.changePassword (specEnv h) request σ).world
          = some stored ∧
        stored.password = h.hash request.newPassword ∧
        h.verify request.newPassword stored.password = true ∧
        (request.oldPassword ≠ request.newPassword →
          h.verify request.oldPassword stored.password = false) := by
  have h1 : ¬ (jsLength request.newPassword < 6 ∨ jsLength request.newPassword > 32) := by omega
  have hfind : σ.docs.find? (fun u => u._id == request.id) = some user := huser
  have hrun : Controller.changePassword (specEnv h) request σ =
      ⟨.json 200 (.message "Password updated successfully"),
        ⟨updateFirst (fun v => v._id == request.id)
          (fun u => { u with password := h.hash request.newPassword }) σ.docs, σ.nextId⟩,
        [.getUser request.id, .comparePassword request.oldPassword user.password,
          .updatePassword request.id request.newPassword]⟩ := by
    simp [Controller.changePassword, h1, hconf.symm, specEnv, huser, hold,
      Repository.updatePassword, User.updateOne, User.findById, hfind]
  rw [hrun]
  refine ⟨rfl, { user with password := h.hash request.newPassword }, ?_, rfl,
    (hs _ _).2 rfl, ?_⟩
  · show (updateFirst (fun v => v._id == request.id)
      (fun u => { u with password := h.hash request.newPassword }) σ.docs).find?
        (fun u => u._id == request.id) = _
    have key := find?_updateFirst (fun v : UserDoc => v._id == request.id)
      (fun u : UserDoc => { u with password := h.hash request.newPassword }) (fun _ => rfl)
      σ.docs
    rw [key, hfind]
    rfl
  · intro hne
    show h.verify request.oldPassword (h.hash request.newPassword) = false
    cases hv : h.verify request.oldPassword (h.hash request.newPassword) with
    | false => rfl
    | true => exact absurd ((hs _ _).1 hv) hne

/-- Claim C5 at a password change on the first example account. -/
theorem changePassword_commit_witness :
    markHasher.Sound ∧
    Repository.getUser 0 demoStore = some ⟨0, "Ann", "ann@x.com", "#secret1"⟩ ∧
    (Controller.changePassword (specEnv markHasher)
        ⟨0, "secret1", "newpass1", "newpass1"⟩ demoStore).outcome
      = .json 200 (.message "Password updated successfully") :=
  ⟨markHasher_sound, rfl,
    (changePassword_commit markHasher markHasher_sound demoStore
      ⟨0, "secret1", "newpass1", "newpass1"⟩ ⟨0, "Ann", "ann@x.com", "#secret1"⟩
      rfl (by decide) rfl rfl).1⟩

/-- Claim C5 as stated fails: a call that keeps the password (old and new
password equal) succeeds under a sound hasher, and the old password still
verifies against what is stored afterwards. -/
theorem changePassword_same_password_still_verifies :
    markHasher.Sound ∧
    Repository.getUser 0 demoStore = some ⟨0, "Ann", "ann@x.com", "#secret1"⟩ ∧
    markHasher.verify "secret1" "#secret1" = true ∧
    (Controller.changePassword (specEnv markHasher)
        ⟨0, "secret1", "secret1", "secret1"⟩ demoStore).outcome
      = .json 200 (.message "Password updated successfully") ∧
    (Repository.getUser 0 (Controller.changePassword (specEnv markHasher)
        ⟨0, "secret1", "secret1", "secret1"⟩ demoStore).world).map
      (fun stored => markHasher.verify "secret1" stored.password) = some true :=
  ⟨markHasher_sound, by decide, by decide, by decide, by decide⟩

/-! ## Account creation -/

/-- Claim C7, as the code has it: when the email of a create request already
belongs to an account of the store, no account is created: the store is
unchanged and the insert is never invoked. The handler passes
EMAIL_ALREADY_TAKEN to `next` when the request carries a confirmation equal to
the password, and INVALID_PASSWORD, before any lookup, when it does not. The
service lookup is the repository lookup. -/
theorem createUser_existing_email (env : Env Store)
    (request : Controller.CreateUserRequest) (σ : Store)
    (hsvc : env.checkEmailExists request.email σ
      = (.ok (Repository.checkEmailExists request.email σ), σ))
    (hex : ∃ u ∈ σ.docs, u.email = request.email) :
    (Controller.createUser env request σ).world = σ ∧
      (∀ c ∈ (Controller.createUser env request σ).calls, c.isCreateUser = false) ∧
      (request.password_confirm = some request.password →
        Controller.createUser env request σ =
          ⟨.next (.responder .EMAIL_ALREADY_TAKEN "Email already taken"), σ,
            [.checkEmailExists request.email]⟩) ∧
      (request.password_confirm ≠ some request.password →
        Controller.createUser env request σ =
          ⟨.next (.responder .INVALID_PASSWORD "Passwords do not match"), σ, []⟩) := by
  have hexists : Repository.checkEmailExists request.email σ = true := by
    obtain ⟨u, hu, he⟩ := hex
    simp only [Repository.checkEmailExists, User.findOne, Option.isSome_iff_ne_none, ne_eq,
      List.find?_eq_none, not_forall]
    exact ⟨u, hu, by simp [he]⟩
  rw [hexists] at hsvc
  by_cases hc : request.password_confirm = some request.password
  · have hrun : Controller.createUser env request σ =
        ⟨.next (.responder .EMAIL_ALREADY_TAKEN "Email already taken"), σ,
          [.checkEmailExists request.email]⟩ := by
      simp [Controller.createUser, hc, hsvc]
    rw [hrun]
    exact ⟨rfl, by simp [Call.isCreateUser], fun _ => rfl, fun hn => absurd hc hn⟩
  · have hrun : Controller.createUser env request σ =
        ⟨.next (.responder .INVALID_PASSWORD "Passwords do not match"), σ, []⟩ := by
      have hc2 : ¬ (some request.password = request.password_confirm) := fun e => hc e.symm
      simp [Controller.createUser, hc2]
    rw [hrun]
    exact ⟨rfl, by simp, fun hn => absurd hn hc, fun _ => rfl⟩

/-- Claim C7 at a create request for an email the example store holds. -/
theorem createUser_existing_email_witness :
    (specEnv markHasher).checkEmailExists "ann@x.com" demoStore
      = (.ok (Repository.checkEmailExists "ann@x.com" demoStore), demoStore) ∧
    (∃ u ∈ demoStore.docs, u.email = "ann@x.com") ∧
    Controller.createUser (specEnv markHasher)
        ⟨"Anna", "ann@x.com", "secret9", some "secret9"⟩ demoStore =
      ⟨.next (.responder .EMAIL_ALREADY_TAKEN "Email already taken"), demoStore,
        [.checkEmailExists "ann@x.com"]⟩ :=
  ⟨rfl, by decide,
    (createUser_existing_email (specEnv markHasher)
      ⟨"Anna", "ann@x.com", "secret9", some "secret9"⟩ demoStore rfl (by decide)).2.2.1 rfl⟩

/-- Claim C7 as stated fails: a create request made of name, email and
password only, for an email that is already in the store, is refused with an
error that is not EMAIL_ALREADY_TAKEN. -/
theorem createUser_existing_email_without_confirm :
    (∃ u ∈ demoStore.docs, u.email = "ann@x.com") ∧
    ¬ (Controller.createUser (specEnv markHasher)
        ⟨"Anna", "ann@x.com", "secret9", none⟩ demoStore).outcome.failsWith
          .EMAIL_ALREADY_TAKEN := by
  decide

/-! ## Email uniqueness over sequences of operations -/

/-- Claim C8, as the code has it: starting from a store with pairwise distinct
emails, after every prefix of a sequence of create, update, delete and
change-password operations handled one after the other the emails are pairwise
distinct, provided each update asks for an email that no account other than
the updated one holds in the store it meets. -/
theorem emails_stay_distinct (h : PasswordHasher) (ops : List Op) (σ : Store)
    (hσ : EmailsDistinct σ) (hfree : EmailFreeRun h ops σ) :
    ∀ k : Nat, EmailsDistinct (runOps h (ops.take k) σ) := by
  induction ops generalizing σ with
  | nil =>
    intro k
    simpa [runOps] using hσ
  | cons op ops ih =>
    intro k
    cases k with
    | zero => simpa [runOps] using hσ
    | succ k =>
      simp only [List.take_succ_cons, runOps]
      exact ih (step h op σ) (step_emails_distinct h op σ hσ hfree.1) hfree.2 k

/-- Claim C8 at a run of one operation of each kind on the example store. -/
theorem emails_stay_distinct_witness :
    EmailsDistinct demoStore ∧
    EmailFreeRun markHasher
      [.create ⟨"Cid", "cid@x.com", "secret3", some "secret3"⟩,
        .update ⟨1, "Bobby", "bobby@x.com"⟩, .delete 0,
        .changePassword ⟨1, "hunter22", "hunter23", "hunter23"⟩] demoStore ∧
    EmailsDistinct (runOps markHasher
      ([.create ⟨"Cid", "cid@x.com", "secret3", some "secret3"⟩,
        .update ⟨1, "Bobby", "bobby@x.com"⟩, .delete 0,
        .changePassword ⟨1, "hunter22", "hunter23", "hunter23"⟩].take 4) demoStore) :=
  ⟨by decide, by decide,
    emails_stay_distinct markHasher
      [.create ⟨"Cid", "cid@x.com", "secret3", some "secret3"⟩,
        .update ⟨1, "Bobby", "bobby@x.com"⟩, .delete 0,
        .changePassword ⟨1, "hunter22", "hunter23", "hunter23"⟩] demoStore
      (by decide) (by decide) 4⟩

/-- Claim C8 as stated fails: an update that asks for the email of another
account goes through, and the store then holds two accounts with one email. -/
theorem update_to_taken_email_breaks_distinctness :
    EmailsDistinct demoStore ∧
    ¬ EmailsDistinct (runOps markHasher [.update ⟨1, "Bob", "ann@x.com"⟩] demoStore) := by
  decide

end Users
